import Mathlib

/-!
# Verification of the client-credentials token flow

Shallow embedding of `tokenclient/tokenFlows.go` and `httpclient/httpclient.go`.

Go strings are embedded as Lean strings.  A Go `map[string]T` is embedded as a
list of key/value pairs; for `url.Values` the list is kept with pairwise distinct
keys by `Values.Set`, for `RequestOptions.Params` the list gives the (unspecified)
order in which `range` visits the entries.

Functions of the Go standard library that the program calls (URL parsing, request
construction, JSON decoding, TLS material handling, the network send) are not part
of the program.  The general theorems take them as the fields of a `Stdlib` value
and hold for every such value; concrete evaluations use `stubStdlib`, whose URL
parser `goParse` follows `net/url`.
-/

namespace TokenClient

/-! ## Constants of `tokenFlows.go` -/

def tokenEndpoint : String := "/oauth2/token"
def grantTypeParameter : String := "grant_type"
def grantTypeClientCredentials : String := "client_credentials"
def clientIDParameter : String := "client_id"
def clientSecretParameter : String := "client_secret"

/-! ## `url.Values` -/

/-- The type `url.Values` (`map[string][]string`), as an association list. -/
abbrev Values := List (String × List String)

/-- The method `Values.Set`: `v[key] = []string{value}`.  An existing entry is replaced
in place, a new one is appended. -/
def Values.Set : Values → String → String → Values
  | [], key, value => [(key, [value])]
  | (k, vs) :: rest, key, value =>
    if k = key then (key, [value]) :: rest else (k, vs) :: Values.Set rest key value

/-- The map read `v[key]`: the values stored under `key`, `none` when the key is absent. -/
def Values.find : Values → String → Option (List String)
  | [], _ => none
  | (k, vs) :: rest, key => if k = key then some vs else Values.find rest key

/-- The keys of the map. -/
def Values.keys (v : Values) : List String := v.map Prod.fst

/-! ## The identity collaborator (`env.Identity`) -/

/-- The interface `env.Identity`: one field per getter the program calls. -/
structure Identity where
  ClientID : String
  ClientSecret : String
  URL : String
  CertificateBased : Bool
  Certificate : String
  Key : String
  deriving DecidableEq, Repr

/-- The type `RequestOptions`.  `Params` lists the entries of the Go map in the order
`range` visits them. -/
structure RequestOptions where
  Params : List (String × String)
  deriving DecidableEq, Repr

/-- Lines 91 to 99 of `ClientCredentials`: the assembly of the form parameters. -/
def buildData (identity : Identity) (options : RequestOptions) : Values :=
  let data : Values := []
  let data := Values.Set data clientIDParameter identity.ClientID
  let data :=
    if identity.ClientSecret ≠ "" then Values.Set data clientSecretParameter identity.ClientSecret
    else data
  let data := options.Params.foldl (fun d p => Values.Set d p.1 p.2) data
  Values.Set data grantTypeParameter grantTypeClientCredentials

/-! ## `net/url`: the URL type and a model of `url.Parse`

The parser works on the characters of the string.  Every test it makes treats all
bytes above `0x7f` alike, so on valid UTF-8 text it takes the branches the byte-wise Go
code takes.  A decoded escape `%XY` is represented by the character with code `0xXY`. -/

/-- The type `url.Userinfo`: a user name and, when set, a password. -/
structure Userinfo where
  username : String
  password : Option String
  deriving DecidableEq, Repr

/-- The type `url.URL`, without the derived fields `RawPath` and `RawFragment`. -/
structure URL where
  Scheme : String
  Opaque : String
  User : Option Userinfo
  Host : String
  Path : String
  ForceQuery : Bool
  RawQuery : String
  Fragment : String
  deriving DecidableEq, Repr

/-- The zero value `new(URL)`. -/
def URL.zero : URL :=
  { Scheme := "", Opaque := "", User := none, Host := "", Path := "",
    ForceQuery := false, RawQuery := "", Fragment := "" }

/-- The function `strings.HasPrefix`. -/
def hasPrefix (s pre : String) : Bool := pre.data.isPrefixOf s.data

/-- The escaping modes of `net/url`. -/
inductive Encoding where
  | encodePath
  | encodePathSegment
  | encodeHost
  | encodeZone
  | encodeUserPassword
  | encodeQueryComponent
  | encodeFragment
  deriving DecidableEq, Repr

def isLetter (c : Char) : Bool := ('a' ≤ c && c ≤ 'z') || ('A' ≤ c && c ≤ 'Z')

def isDigit (c : Char) : Bool := '0' ≤ c && c ≤ '9'

/-- The apostrophe character. -/
def apostrophe : Char := Char.ofNat 39

/-- The double-quote character. -/
def dquote : Char := Char.ofNat 34

/-- The backslash character. -/
def backslash : Char := Char.ofNat 92

/-- The function `shouldEscape` of `net/url`. -/
def shouldEscape (c : Char) (mode : Encoding) : Bool :=
  if isLetter c || isDigit c then false
  else if (mode = .encodeHost || mode = .encodeZone) &&
      ['!', '$', '&', apostrophe, '(', ')', '*', '+', ',', ';', '=', ':', '[', ']', '<', '>',
        dquote].contains c then false
  else if ['-', '_', '.', '~'].contains c then false
  else if ['$', '&', '+', ',', '/', ':', ';', '=', '?', '@'].contains c &&
      mode = .encodePath then c = '?'
  else if ['$', '&', '+', ',', '/', ':', ';', '=', '?', '@'].contains c &&
      mode = .encodePathSegment then c = '/' || c = ';' || c = ',' || c = '?'
  else if ['$', '&', '+', ',', '/', ':', ';', '=', '?', '@'].contains c &&
      mode = .encodeUserPassword then c = '@' || c = '/' || c = '?' || c = ':'
  else if ['$', '&', '+', ',', '/', ':', ';', '=', '?', '@'].contains c &&
      mode = .encodeQueryComponent then true
  else if ['$', '&', '+', ',', '/', ':', ';', '=', '?', '@'].contains c &&
      mode = .encodeFragment then false
  else if mode = .encodeFragment && ['!', '(', ')', '*'].contains c then false
  else true

def ishex (c : Char) : Bool :=
  isDigit c || ('a' ≤ c && c ≤ 'f') || ('A' ≤ c && c ≤ 'F')

def unhex (c : Char) : Nat :=
  if isDigit c then c.toNat - '0'.toNat
  else if 'a' ≤ c && c ≤ 'f' then c.toNat - 'a'.toNat + 10
  else if 'A' ≤ c && c ≤ 'F' then c.toNat - 'A'.toNat + 10
  else 0

/-- The function `strconv.Quote` on text without control characters: the text between
double quotes, a double quote or backslash inside it preceded by a backslash. -/
def quote (s : List Char) : String :=
  String.mk (dquote :: s.flatMap (fun c => if c = dquote || c = backslash then [backslash, c]
    else [c]) ++ [dquote])

/-- The function `unescape` of `net/url`: checks and decodes the escapes of `s`. -/
def unescape (mode : Encoding) : List Char → Except String (List Char)
  | [] => .ok []
  | '%' :: a :: b :: rest =>
    if !(ishex a && ishex b) then .error ("invalid URL escape " ++ quote ['%', a, b])
    else if mode = .encodeHost && unhex a < 8 && (a, b) ≠ ('2', '5') then
      .error ("invalid URL escape " ++ quote ['%', a, b])
    else if mode = .encodeZone && (a, b) ≠ ('2', '5') &&
        Char.ofNat (unhex a * 16 + unhex b) ≠ ' ' &&
        shouldEscape (Char.ofNat (unhex a * 16 + unhex b)) .encodeHost then
      .error ("invalid URL escape " ++ quote ['%', a, b])
    else
      match unescape mode rest with
      | .ok r => .ok (Char.ofNat (unhex a * 16 + unhex b) :: r)
      | .error e => .error e
  | '%' :: rest => .error ("invalid URL escape " ++ quote ('%' :: rest))
  | c :: rest =>
    if c ≠ '+' && (mode = .encodeHost || mode = .encodeZone) && c.toNat < 0x80 &&
        shouldEscape c .encodeHost then
      .error ("invalid character " ++ quote [c] ++ " in host name")
    else
      match unescape mode rest with
      | .ok r => .ok ((if c = '+' && mode = .encodeQueryComponent then ' ' else c) :: r)
      | .error e => .error e

/-- The function `stringContainsCTLByte`. -/
def stringContainsCTLByte (s : List Char) : Bool := s.any (fun c => c < ' ' || c.toNat = 0x7f)

/-- The loop of `getScheme`; `i` is the index of the head of the third argument. -/
def getSchemeLoop (rawURL : List Char) : Nat → List Char → Except String (List Char × List Char)
  | _, [] => .ok ([], rawURL)
  | i, c :: rest =>
    if isLetter c then getSchemeLoop rawURL (i + 1) rest
    else if isDigit c || c = '+' || c = '-' || c = '.' then
      if i = 0 then .ok ([], rawURL) else getSchemeLoop rawURL (i + 1) rest
    else if c = ':' then
      if i = 0 then .error "missing protocol scheme" else .ok (rawURL.take i, rest)
    else .ok ([], rawURL)

/-- The function `getScheme`: splits a leading `scheme:` off. -/
def getScheme (rawURL : List Char) : Except String (List Char × List Char) :=
  getSchemeLoop rawURL 0 rawURL

/-- The function `strings.Cut` for a one-character separator: the text before and after
the first separator. -/
def cut (sep : Char) (s : List Char) : List Char × List Char :=
  ((s.span (fun c => c ≠ sep)).1, (s.span (fun c => c ≠ sep)).2.drop 1)

/-- The function `strings.LastIndex` for a one-character pattern. -/
def lastIndex (sep : Char) : List Char → Option Nat
  | [] => none
  | c :: rest =>
    match lastIndex sep rest with
    | some i => some (i + 1)
    | none => if c = sep then some 0 else none

/-- The function `strings.Index`. -/
def index (pat : List Char) : List Char → Option Nat
  | [] => if pat.isEmpty then some 0 else none
  | c :: rest =>
    if pat.isPrefixOf (c :: rest) then some 0 else (index pat rest).map (fun i => i + 1)

/-- The function `validOptionalPort`. -/
def validOptionalPort : List Char → Bool
  | [] => true
  | c :: rest => c = ':' && rest.all isDigit

/-- The function `validUserinfo`. -/
def validUserinfo (s : List Char) : Bool :=
  s.all (fun r => isLetter r || isDigit r ||
    ['-', '.', '_', ':', '~', '!', '$', '&', apostrophe, '(', ')', '*', '+', ',', ';', '=', '%',
      '@'].contains r)

/-- The function `parseHost`: checks the port and the brackets of an IP literal and
decodes the host. -/
def parseHost (host : List Char) : Except String (List Char) :=
  if host.head? = some '[' then
    match lastIndex ']' host with
    | none => .error "missing ']' in host"
    | some i =>
      if !validOptionalPort (host.drop (i + 1)) then
        .error ("invalid port " ++ quote (host.drop (i + 1)) ++ " after host")
      else
        match index ['%', '2', '5'] (host.take i) with
        | some zone =>
          match unescape .encodeHost (host.take zone) with
          | .error e => .error e
          | .ok host1 =>
            match unescape .encodeZone ((host.take i).drop zone) with
            | .error e => .error e
            | .ok host2 =>
              match unescape .encodeHost (host.drop i) with
              | .error e => .error e
              | .ok host3 => .ok (host1 ++ host2 ++ host3)
        | none => unescape .encodeHost host
  else
    match lastIndex ':' host with
    | some i =>
      if !validOptionalPort (host.drop i) then
        .error ("invalid port " ++ quote (host.drop i) ++ " after host")
      else unescape .encodeHost host
    | none => unescape .encodeHost host

/-- The second half of `parseAuthority`: the user information before the last `@`. -/
def parseUserinfo (userinfo : List Char) : Except String Userinfo :=
  if !validUserinfo userinfo then .error "net/url: invalid userinfo"
  else if !userinfo.contains ':' then
    match unescape .encodeUserPassword userinfo with
    | .error e => .error e
    | .ok u => .ok { username := String.mk u, password := none }
  else
    match unescape .encodeUserPassword (cut ':' userinfo).1 with
    | .error e => .error e
    | .ok u =>
      match unescape .encodeUserPassword (cut ':' userinfo).2 with
      | .error e => .error e
      | .ok pw => .ok { username := String.mk u, password := some (String.mk pw) }

/-- The function `parseAuthority`: `[userinfo@]host`. -/
def parseAuthority (authority : List Char) : Except String (Option Userinfo × List Char) :=
  match lastIndex '@' authority with
  | none =>
    match parseHost authority with
    | .error e => .error e
    | .ok host => .ok (none, host)
  | some i =>
    match parseHost (authority.drop (i + 1)) with
    | .error e => .error e
    | .ok host =>
      match parseUserinfo (authority.take i) with
      | .error e => .error e
      | .ok user => .ok (some user, host)

/-- The tail of `parse`: the authority, when `rest` starts with `//`, and the path. -/
def parseAuthorityAndPath (url : URL) (rest : List Char) : Except String URL :=
  if (url.Scheme ≠ "" || !(['/', '/', '/'].isPrefixOf rest)) && ['/', '/'].isPrefixOf rest then
    match parseAuthority ((rest.drop 2).span (fun c => c ≠ '/')).1 with
    | .error e => .error e
    | .ok (user, host) =>
      match unescape .encodePath ((rest.drop 2).span (fun c => c ≠ '/')).2 with
      | .error e => .error e
      | .ok path => .ok { url with User := user, Host := String.mk host, Path := String.mk path }
  else
    match unescape .encodePath rest with
    | .error e => .error e
    | .ok path => .ok { url with Path := String.mk path }

/-- The function `parse` of `net/url` with `viaRequest = false`. -/
def parse (rawURL : List Char) : Except String URL :=
  if stringContainsCTLByte rawURL then .error "net/url: invalid control character in URL"
  else if rawURL = ['*'] then .ok { URL.zero with Path := "*" }
  else
    match getScheme rawURL with
    | .error e => .error e
    | .ok (scheme, rest0) =>
      let url := { URL.zero with Scheme := String.mk (scheme.map Char.toLower) }
      let forceQuery := rest0.getLast? = some '?' && rest0.count '?' = 1
      let rest := if forceQuery then rest0.dropLast else (cut '?' rest0).1
      let url := if forceQuery then { url with ForceQuery := true }
        else { url with RawQuery := String.mk (cut '?' rest0).2 }
      if rest.head? ≠ some '/' && url.Scheme ≠ "" then .ok { url with Opaque := String.mk rest }
      else if rest.head? ≠ some '/' && (cut '/' rest).1.contains ':' then
        .error "first path segment in URL cannot contain colon"
      else parseAuthorityAndPath url rest

/-- The function `url.Parse`.  An error is given by its text, `parse "<url>": <cause>`. -/
def goParse (rawURL : String) : Except String URL :=
  match parse (cut '#' rawURL.data).1 with
  | .error e => .error ("parse " ++ quote (cut '#' rawURL.data).1 ++ ": " ++ e)
  | .ok url =>
    if (cut '#' rawURL.data).2 = [] then .ok url
    else
      match unescape .encodeFragment (cut '#' rawURL.data).2 with
      | .error e => .error ("parse " ++ quote rawURL.data ++ ": " ++ e)
      | .ok frag => .ok { url with Fragment := String.mk frag }

/-! ## Query encoding (`Values.Encode`) -/

/-- The UTF-8 bytes of a character. -/
def utf8Bytes (c : Char) : List Nat :=
  if c.toNat < 0x80 then [c.toNat]
  else if c.toNat < 0x800 then [0xC0 + c.toNat / 64, 0x80 + c.toNat % 64]
  else if c.toNat < 0x10000 then
    [0xE0 + c.toNat / 4096, 0x80 + c.toNat / 64 % 64, 0x80 + c.toNat % 64]
  else
    [0xF0 + c.toNat / 262144, 0x80 + c.toNat / 4096 % 64, 0x80 + c.toNat / 64 % 64,
      0x80 + c.toNat % 64]

/-- The digit of `"0123456789ABCDEF"` at index `n`. -/
def upperhex (n : Nat) : Char :=
  if n < 10 then Char.ofNat ('0'.toNat + n) else Char.ofNat ('A'.toNat + (n - 10))

/-- The function `escape` of `net/url`: a byte that `shouldEscape` is written `%XY`, in
query components a space is written `+`. -/
def escape (mode : Encoding) (s : List Char) : List Char :=
  s.flatMap (fun c =>
    if c.toNat < 0x80 then
      if shouldEscape c mode then
        if c = ' ' && mode = .encodeQueryComponent then ['+']
        else ['%', upperhex (c.toNat / 16), upperhex (c.toNat % 16)]
      else [c]
    else (utf8Bytes c).flatMap (fun b => ['%', upperhex (b / 16), upperhex (b % 16)]))

/-- The function `url.QueryEscape`. -/
def QueryEscape (s : String) : String := String.mk (escape .encodeQueryComponent s.data)

/-- The comparison `a < b` of Go strings: lexicographic on the bytes, which on UTF-8 text
is lexicographic on the code points. -/
def stringLess : List Char → List Char → Bool
  | _, [] => false
  | [], _ :: _ => true
  | a :: as, b :: bs => a.toNat < b.toNat || (a.toNat = b.toNat && stringLess as bs)

/-- Insertion of a key into a sorted list of keys. -/
def insertKey (k : String) : List String → List String
  | [] => [k]
  | x :: xs => if stringLess k.data x.data then k :: x :: xs else x :: insertKey k xs

/-- The function `sort.Strings`. -/
def sortStrings (l : List String) : List String := l.foldr insertKey []

/-- The method `Values.Encode`: `key=value` pairs in the order of the sorted keys, joined
by `&`. -/
def Values.Encode (v : Values) : String :=
  String.intercalate "&"
    ((sortStrings (Values.keys v)).flatMap (fun k =>
      ((Values.find v k).getD []).map (fun x => QueryEscape k ++ "=" ++ QueryEscape x)))

/-! ## HTTP and TLS types -/

/-- The state of a `context.Context` when the call is made: the result of `ctx.Err()`. -/
structure Context where
  Err : Option String
  deriving DecidableEq, Repr

/-- The fields of `http.Request` that the program sets. -/
structure Request where
  ctx : Context
  Method : String
  URL : URL
  Header : Values
  Body : String
  deriving DecidableEq, Repr

/-- The fields of `http.Response` that the program reads; `Body` is the text that
reading the body to its end gives. -/
structure Response where
  StatusCode : Int
  Body : String
  deriving DecidableEq, Repr

/-- The type `tls.Certificate`, given by the PEM blocks it was parsed from. -/
structure Certificate where
  certPEMBlock : String
  keyPEMBlock : String
  deriving DecidableEq, Repr

/-- The type `x509.CertPool`, given by the PEM blocks added to it. -/
abbrev CertPool := List String

/-- The fields of `tls.Config` that the program sets. -/
structure TLSConfig where
  MinVersion : Nat
  RootCAs : CertPool
  Certificates : List Certificate
  deriving DecidableEq, Repr

/-- The constant `tls.VersionTLS12`. -/
def VersionTLS12 : Nat := 0x0303

/-- The fields of `http.Transport` that the program sets. -/
structure Transport where
  TLSClientConfig : TLSConfig
  MaxIdleConns : Nat
  deriving DecidableEq, Repr

/-- The fields of `http.Client` that the program sets; `Timeout` is in nanoseconds. -/
structure Client where
  Timeout : Nat
  Transport : Option Transport
  deriving DecidableEq, Repr

/-- The constant `time.Second`, in nanoseconds. -/
def Second : Nat := 1000000000

/-- The type `tokenResponse`. -/
structure tokenResponse where
  Token : String
  deriving DecidableEq, Repr

/-- The functions of the Go standard library that the program calls.  An error result
is given by its text (`err.Error()`). -/
structure Stdlib where
  /-- The function `url.Parse`. -/
  urlParse : String → Except String URL
  /-- The method `(*url.URL).String`. -/
  urlString : URL → String
  /-- The function `http.NewRequestWithContext` (context, method, url, body). -/
  newRequest : Context → String → String → String → Except String Request
  /-- The method `(*http.Client).Do`: the network. -/
  clientDo : Client → Request → Except String Response
  /-- The call `json.NewDecoder(body).Decode(v)` for `v` a `*tokenResponse`. -/
  jsonDecode : String → tokenResponse → Except String tokenResponse
  /-- The function `tls.X509KeyPair`. -/
  x509KeyPair : String → String → Except String Certificate
  /-- The function `x509.SystemCertPool`. -/
  systemCertPool : Except String CertPool
  /-- The method `(*x509.CertPool).AppendCertsFromPEM`: the pool afterwards and `ok`. -/
  appendCertsFromPEM : CertPool → String → CertPool × Bool

/-! ## `httpclient/httpclient.go` -/

/-- The function `DefaultTLSConfig`; `none` is the nil configuration. -/
def DefaultTLSConfig (sl : Stdlib) (identity : Identity) : Except String (Option TLSConfig) :=
  if !identity.CertificateBased then .ok none
  else
    match sl.x509KeyPair identity.Certificate identity.Key with
    | .error err => .error ("error creating x509 key pair for DefaultTLSConfig: " ++ err)
    | .ok tlsCert =>
      match sl.systemCertPool with
      | .error err => .error ("error setting up cert pool for DefaultTLSConfig: " ++ err)
      | .ok tlsCertPool =>
        if !(sl.appendCertsFromPEM tlsCertPool identity.Certificate).2 then
          .error "error adding certs to pool for DefaultTLSConfig"
        else
          .ok (some { MinVersion := VersionTLS12,
                      RootCAs := (sl.appendCertsFromPEM tlsCertPool identity.Certificate).1,
                      Certificates := [tlsCert] })

/-- The function `DefaultHTTPClient`. -/
def DefaultHTTPClient (tlsConfig : Option TLSConfig) : Client :=
  match tlsConfig with
  | some cfg =>
    { Timeout := Second * 10, Transport := some { TLSClientConfig := cfg, MaxIdleConns := 50 } }
  | none => { Timeout := Second * 10, Transport := none }

/-! ## `tokenclient/tokenFlows.go` -/

/-- The type `Options`; `none` is the nil client. -/
structure Options where
  HTTPClient : Option Client
  deriving DecidableEq, Repr

/-- The type `TokenFlows`. -/
structure TokenFlows where
  identity : Identity
  options : Options
  tokenURI : String
  deriving DecidableEq, Repr

/-- The type `RequestFailedError`. -/
structure RequestFailedError where
  StatusCode : Int
  url : URL
  errTxt : String
  deriving DecidableEq, Repr

/-- The method `RequestFailedError.Error`. -/
def RequestFailedError.Error (sl : Stdlib) (e : RequestFailedError) : String :=
  "request to '" ++ sl.urlString e.url ++ "' failed with status code '" ++ toString e.StatusCode
    ++ "' and payload: '" ++ e.errTxt ++ "'"

/-- The error values the program returns: one made by `fmt.Errorf` or `errors.New`,
given by its text, or a `*RequestFailedError`. -/
inductive GoError where
  | errorString (msg : String)
  | requestFailed (e : RequestFailedError)
  deriving DecidableEq, Repr

/-- The method `Error` of an error value. -/
def GoError.Error (sl : Stdlib) : GoError → String
  | .errorString msg => msg
  | .requestFailed e => e.Error sl

/-- The function `NewTokenFlows`. -/
def NewTokenFlows (sl : Stdlib) (identity : Identity) (options : Options) :
    Except String TokenFlows :=
  let t : TokenFlows :=
    { identity := identity, tokenURI := identity.URL ++ tokenEndpoint, options := options }
  if options.HTTPClient = none then
    match DefaultTLSConfig sl identity with
    | .error err => .error err
    | .ok tlsConfig =>
      .ok { t with options := { t.options with HTTPClient := some (DefaultHTTPClient tlsConfig) } }
  else .ok t

/-- The text `fmt.Errorf` writes for the verb `%w` given the error of a parse result;
a nil error is written `%!w(<nil>)`. -/
def formatParseErr : Except String URL → String
  | .error err => err
  | .ok _ => "%!w(<nil>)"

/-- The method `TokenFlows.getURL`. -/
def getURL (sl : Stdlib) (_t : TokenFlows) (customerTenantURL : String) :
    Except GoError String :=
  match sl.urlParse customerTenantURL with
  | .ok customURL =>
    if customURL.Host ≠ "" then .ok ("https://" ++ customURL.Host ++ tokenEndpoint)
    else if !hasPrefix customerTenantURL "http" then
      .error (.errorString ("customer tenant url '" ++ customerTenantURL ++
        "' is not a valid url: Trying to parse a hostname without a scheme is invalid"))
    else
      .error (.errorString ("customer tenant url '" ++ customerTenantURL ++
        "' can't be parsed: " ++ formatParseErr (sl.urlParse customerTenantURL)))
  | .error _ =>
    if !hasPrefix customerTenantURL "http" then
      .error (.errorString ("customer tenant url '" ++ customerTenantURL ++
        "' is not a valid url: Trying to parse a hostname without a scheme is invalid"))
    else
      .error (.errorString ("customer tenant url '" ++ customerTenantURL ++
        "' can't be parsed: " ++ formatParseErr (sl.urlParse customerTenantURL)))

/-- What a call of `performRequest` leaves: the returned error (`none` is nil), the
decoded value `v`, and the requests handed to `HTTPClient.Do`. -/
structure PerformResult where
  err : Option GoError
  v : tokenResponse
  sent : List Request
  deriving DecidableEq, Repr

/-- The method `TokenFlows.performRequest`.  The result `none` is the run-time panic of
calling `Do` on a nil client. -/
def performRequest (sl : Stdlib) (t : TokenFlows) (r : Request) (v : tokenResponse) :
    Option PerformResult :=
  match t.options.HTTPClient with
  | none => none
  | some client =>
    match sl.clientDo client r with
    | .error err =>
      some { err := some (.errorString
               ("request to '" ++ sl.urlString r.URL ++ "' failed: " ++ err)),
             v := v, sent := [r] }
    | .ok res =>
      if res.StatusCode ≠ 200 then
        some { err := some (.requestFailed
                 { StatusCode := res.StatusCode, url := r.URL, errTxt := res.Body }),
               v := v, sent := [r] }
      else
        match sl.jsonDecode res.Body v with
        | .error err =>
          some { err := some (.errorString
                   ("error parsing response from " ++ sl.urlString r.URL ++ ": " ++ err)),
                 v := v, sent := [r] }
        | .ok v1 => some { err := none, v := v1, sent := [r] }

/-- The statement `r.Header.Set("Content-Type", "application/x-www-form-urlencoded")`. -/
def setContentType (r : Request) : Request :=
  { r with Header := Values.Set r.Header "Content-Type" "application/x-www-form-urlencoded" }

/-- What a call of `ClientCredentials` leaves: the two returned values (`err = none` is
nil) and the requests handed to `HTTPClient.Do`. -/
structure CallResult where
  token : String
  err : Option GoError
  sent : List Request
  deriving DecidableEq, Repr

/-- The method `TokenFlows.ClientCredentials`.  The result `none` is the run-time panic
of calling `Do` on a nil client. -/
def ClientCredentials (sl : Stdlib) (t : TokenFlows) (ctx : Context)
    (customerTenantURL : String) (options : RequestOptions) : Option CallResult :=
  let data := buildData t.identity options
  match getURL sl t customerTenantURL with
  | .error err => some { token := "", err := some err, sent := [] }
  | .ok targetURL =>
    match sl.newRequest ctx "POST" targetURL (Values.Encode data) with
    | .error err =>
      some { token := "",
             err := some (.errorString ("error performing client credentials flow: " ++ err)),
             sent := [] }
    | .ok r0 =>
      let r := setContentType r0
      match performRequest sl t r { Token := "" } with
      | none => none
      | some res =>
        match res.err with
        | some err => some { token := "", err := some err, sent := res.sent }
        | none =>
          if res.v.Token = "" then
            some { token := "",
                   err := some (.errorString
                     "error parsing requested client credentials token: no 'access_token' property provided"),
                   sent := res.sent }
          else some { token := res.v.Token, err := none, sent := res.sent }

/-! ## A concrete standard library for evaluating the program

`goParse` above stands for `url.Parse`.  The network, the JSON decoder and the TLS
functions are replaced by doubles: the network is a stub server that answers every
request alike. -/

/-- The method `(*url.Userinfo).String`. -/
def Userinfo.String (u : Userinfo) : String :=
  match u.password with
  | some pw =>
    String.mk (escape .encodeUserPassword u.username.data) ++ ":" ++
      String.mk (escape .encodeUserPassword pw.data)
  | none => String.mk (escape .encodeUserPassword u.username.data)

/-- The method `(*url.URL).String` for a URL whose `RawPath` and `RawFragment` are unset. -/
def goURLString (u : URL) : String :=
  let scheme := if u.Scheme ≠ "" then u.Scheme ++ ":" else ""
  let path := if u.Path = "*" then "*" else String.mk (escape .encodePath u.Path.data)
  let hier :=
    if u.Opaque ≠ "" then u.Opaque
    else
      let auth :=
        if u.Scheme ≠ "" || u.Host ≠ "" || u.User.isSome then
          (if u.Host ≠ "" || u.Path ≠ "" || u.User.isSome then "//" else "") ++
          (match u.User with
            | some ui => ui.String ++ "@"
            | none => "") ++
          (if u.Host ≠ "" then String.mk (escape .encodeHost u.Host.data) else "")
        else ""
      let slash := if path ≠ "" && path.data.head? ≠ some '/' && u.Host ≠ "" then "/" else ""
      let dot :=
        if scheme ++ auth ++ slash = "" && (cut '/' path.data).1.contains ':' then "./" else ""
      auth ++ slash ++ dot ++ path
  let query := if u.ForceQuery || u.RawQuery ≠ "" then "?" ++ u.RawQuery else ""
  let frag :=
    if u.Fragment ≠ "" then "#" ++ String.mk (escape .encodeFragment u.Fragment.data) else ""
  scheme ++ hier ++ query ++ frag

/-- The function `removeEmptyPort` of `net/http`: a host ending in `:` loses the colon. -/
def removeEmptyPort (host : String) : String :=
  if host.data.getLast? = some ':' then String.mk host.data.dropLast else host

/-- The function `http.NewRequestWithContext` for a valid method and a non-nil context:
the URL is parsed and an empty port removed. -/
def goNewRequest (ctx : Context) (method url body : String) : Except String Request :=
  match goParse url with
  | .error err => .error err
  | .ok u =>
    .ok { ctx := ctx, Method := method, URL := { u with Host := removeEmptyPort u.Host },
          Header := [], Body := body }

/-- A decoder double that knows the bodies of the stub servers: the object with the
token `abc123`, the empty object, and text that is not JSON. -/
def stubDecode (body : String) (v : tokenResponse) : Except String tokenResponse :=
  if body = "\x7b\"access_token\":\"abc123\"\x7d" then .ok { v with Token := "abc123" }
  else if body = "\x7b\x7d" then .ok v
  else
    match body.data with
    | [] => .error "EOF"
    | c :: _ => .error ("invalid character '" ++ String.mk [c] ++
        "' looking for beginning of value")

/-- A standard library whose network is a stub server answering every request with the
given status code and body. -/
def stubStdlib (status : Int) (body : String) : Stdlib :=
  { urlParse := goParse
    urlString := goURLString
    newRequest := goNewRequest
    clientDo := fun _ _ => .ok { StatusCode := status, Body := body }
    jsonDecode := stubDecode
    x509KeyPair := fun cert key =>
      if cert = "" || key = "" then .error "tls: failed to find any PEM data in input"
      else .ok { certPEMBlock := cert, keyPEMBlock := key }
    systemCertPool := .ok []
    appendCertsFromPEM := fun pool cert => (pool ++ [cert], cert ≠ "") }

/-- An identity that authenticates with a shared secret. -/
def secretIdentity : Identity :=
  { ClientID := "my-client", ClientSecret := "s3cret", URL := "https://default.example.com",
    CertificateBased := false, Certificate := "", Key := "" }

/-- An identity without a shared secret (certificate based). -/
def certIdentity : Identity :=
  { ClientID := "my-client", ClientSecret := "", URL := "https://default.example.com",
    CertificateBased := true, Certificate := "CERT", Key := "KEY" }

/-- The token flows `NewTokenFlows` builds for `secretIdentity` without a supplied client. -/
def secretFlows : TokenFlows :=
  { identity := secretIdentity, options := { HTTPClient := some (DefaultHTTPClient none) },
    tokenURI := "https://default.example.com/oauth2/token" }

/-- The token flows `NewTokenFlows` builds for `secretIdentity` with the base URL
`https://other.example.com` instead. -/
def otherFlows : TokenFlows :=
  { identity := { secretIdentity with URL := "https://other.example.com" },
    options := { HTTPClient := some (DefaultHTTPClient none) },
    tokenURI := "https://other.example.com/oauth2/token" }

/-- The context `context.Background()`. -/
def background : Context := { Err := none }

/-- The request `http.NewRequestWithContext` builds for `secretIdentity`, no options and
the tenant `tenant.example.com`. -/
def tenantRequest : Request :=
  { ctx := background, Method := "POST",
    URL := { Scheme := "https", Opaque := "", User := none, Host := "tenant.example.com",
             Path := "/oauth2/token", ForceQuery := false, RawQuery := "", Fragment := "" },
    Header := [],
    Body := "client_id=my-client&client_secret=s3cret&grant_type=client_credentials" }

/-! ## Lemmas on `url.Values` -/

theorem find_Set_same (d : Values) (k v : String) :
    Values.find (Values.Set d k v) k = some [v] := by
  induction d with
  | nil => simp [Values.Set, Values.find]
  | cons hd tl ih =>
    obtain ⟨k1, vs⟩ := hd
    by_cases h : k1 = k
    · simp [Values.Set, Values.find, h]
    · simp [Values.Set, Values.find, h, ih]

theorem find_Set_other (d : Values) (k v k2 : String) (h : k2 ≠ k) :
    Values.find (Values.Set d k v) k2 = Values.find d k2 := by
  induction d with
  | nil => simp [Values.Set, Values.find, Ne.symm h]
  | cons hd tl ih =>
    obtain ⟨k1, vs⟩ := hd
    by_cases h1 : k1 = k
    · subst h1
      simp [Values.Set, Values.find, Ne.symm h]
    · by_cases h2 : k1 = k2
      · subst h2
        simp [Values.Set, Values.find, h1]
      · simp [Values.Set, Values.find, h1, h2, ih]

theorem count_keys_Set_same (d : Values) (k v : String)
    (hd : (Values.keys d).count k ≤ 1) : (Values.keys (Values.Set d k v)).count k = 1 := by
  induction d with
  | nil => simp [Values.Set, Values.keys]
  | cons hd1 tl ih =>
    obtain ⟨k1, vs⟩ := hd1
    by_cases h : k1 = k
    · subst h
      simp only [Values.keys, List.map_cons, List.count_cons_self] at hd
      simp only [Values.Set, if_true, Values.keys, List.map_cons, List.count_cons_self]
      omega
    · have hd2 : (Values.keys tl).count k ≤ 1 := by
        simpa [Values.keys, List.count_cons, h] using hd
      have := ih hd2
      simpa [Values.Set, h, Values.keys, List.count_cons] using this

theorem count_keys_Set_other (d : Values) (k v k2 : String) (h : k2 ≠ k) :
    (Values.keys (Values.Set d k v)).count k2 = (Values.keys d).count k2 := by
  induction d with
  | nil => simp [Values.Set, Values.keys, List.count_cons, Ne.symm h]
  | cons hd tl ih =>
    obtain ⟨k1, vs⟩ := hd
    by_cases h1 : k1 = k
    · subst h1
      simp [Values.Set, Values.keys, List.count_cons, Ne.symm h]
    · have := ih
      simp only [Values.keys] at this
      simp [Values.Set, Values.keys, List.count_cons, h1, this]

/-- The method `Values.Set` keeps the keys of the map pairwise distinct. -/
theorem count_keys_Set_le (d : Values) (k v : String)
    (hd : ∀ x, (Values.keys d).count x ≤ 1) : ∀ x, (Values.keys (Values.Set d k v)).count x ≤ 1 := by
  intro x
  by_cases h : x = k
  · subst h
    exact le_of_eq (count_keys_Set_same d x v (hd x))
  · rw [count_keys_Set_other d k v x h]
    exact hd x

theorem count_keys_foldl_le (params : List (String × String)) (d : Values)
    (hd : ∀ x, (Values.keys d).count x ≤ 1) :
    ∀ x, (Values.keys (params.foldl (fun d p => Values.Set d p.1 p.2) d)).count x ≤ 1 := by
  induction params generalizing d with
  | nil => simpa using hd
  | cons p ps ih =>
    simp only [List.foldl_cons]
    exact ih _ (count_keys_Set_le d p.1 p.2 hd)

/-- A key that the options do not name keeps its entry through the loop over the
options. -/
theorem find_foldl_not_mem (params : List (String × String)) (d : Values) (k : String)
    (hk : k ∉ params.map Prod.fst) :
    Values.find (params.foldl (fun d p => Values.Set d p.1 p.2) d) k = Values.find d k := by
  induction params generalizing d with
  | nil => rfl
  | cons p ps ih =>
    simp only [List.map_cons, List.mem_cons, not_or] at hk
    simp only [List.foldl_cons]
    rw [ih _ hk.2, find_Set_other d p.1 p.2 k hk.1]

/-- After the loop over options with pairwise distinct keys, an option is stored with
its own value. -/
theorem find_foldl_mem (params : List (String × String)) (d : Values) (k v : String)
    (hnodup : (params.map Prod.fst).Nodup) (hmem : (k, v) ∈ params) :
    Values.find (params.foldl (fun d p => Values.Set d p.1 p.2) d) k = some [v] := by
  induction params generalizing d with
  | nil => simp at hmem
  | cons p ps ih =>
    simp only [List.map_cons, List.nodup_cons] at hnodup
    simp only [List.foldl_cons]
    rcases List.mem_cons.mp hmem with h | h
    · subst h
      rw [find_foldl_not_mem ps _ k hnodup.1]
      exact find_Set_same d k v
    · exact ih _ hnodup.2 h

/-- After the loop over the options a key is present exactly when it was present before
or the options name it. -/
theorem find_foldl_isSome (params : List (String × String)) (d : Values) (k : String) :
    (Values.find (params.foldl (fun d p => Values.Set d p.1 p.2) d) k).isSome = true ↔
      (Values.find d k).isSome = true ∨ k ∈ params.map Prod.fst := by
  induction params generalizing d with
  | nil => simp
  | cons p ps ih =>
    simp only [List.foldl_cons, List.map_cons, List.mem_cons]
    rw [ih]
    by_cases h : k = p.1
    · subst h
      simp [find_Set_same]
    · rw [find_Set_other d p.1 p.2 k h]
      simp [h]

theorem buildData_keys_le (identity : Identity) (options : RequestOptions) (x : String) :
    (Values.keys (options.Params.foldl (fun d p => Values.Set d p.1 p.2)
      (if identity.ClientSecret ≠ "" then
        Values.Set (Values.Set [] clientIDParameter identity.ClientID) clientSecretParameter
          identity.ClientSecret
       else Values.Set [] clientIDParameter identity.ClientID))).count x ≤ 1 := by
  apply count_keys_foldl_le
  have h0 : ∀ y, (Values.keys (Values.Set [] clientIDParameter identity.ClientID)).count y ≤ 1 :=
    count_keys_Set_le [] _ _ (by simp [Values.keys])
  split
  · exact count_keys_Set_le _ _ _ h0
  · exact h0

/-! ## Parameter assembly -/

/-- C1: for every identity and every request options (also ones that name `grant_type`),
the assembled parameter set stores under `grant_type` the single value
`client_credentials`, and `grant_type` occurs once among its keys. -/
theorem buildData_grant_type (identity : Identity) (options : RequestOptions) :
    Values.find (buildData identity options) grantTypeParameter = some [grantTypeClientCredentials]
      ∧ (Values.keys (buildData identity options)).count grantTypeParameter = 1 := by
  refine ⟨find_Set_same _ _ _, ?_⟩
  unfold buildData
  exact count_keys_Set_same _ _ _ (buildData_keys_le identity options grantTypeParameter)

/-- C2: for every identity and every request options with pairwise distinct keys, a key
`k` other than `grant_type` that the options map to `v` is stored in the assembled
parameter set with the single value `v`; this holds for `client_id` and `client_secret`
too, whatever the identity says. -/
theorem buildData_caller_value (identity : Identity) (options : RequestOptions) (k v : String)
    (hnodup : (options.Params.map Prod.fst).Nodup) (hk : k ≠ grantTypeParameter)
    (hmem : (k, v) ∈ options.Params) :
    Values.find (buildData identity options) k = some [v] := by
  unfold buildData
  rw [find_Set_other _ _ _ k hk]
  exact find_foldl_mem options.Params _ k v hnodup hmem

/-- Witness of C2: the caller overrides both `client_id` and `client_secret` of an
identity that has its own. -/
theorem buildData_caller_value_witness :
    Values.find (buildData secretIdentity { Params := [("client_secret", "other"),
        ("client_id", "their-client"), ("scope", "x")] }) "client_secret" = some ["other"] ∧
    Values.find (buildData secretIdentity { Params := [("client_secret", "other"),
        ("client_id", "their-client"), ("scope", "x")] }) "client_id" = some ["their-client"] :=
  ⟨buildData_caller_value secretIdentity _ "client_secret" "other" (by decide) (by decide)
      (by decide),
   buildData_caller_value secretIdentity _ "client_id" "their-client" (by decide) (by decide)
      (by decide)⟩

/-- Counterexample to C3 as stated: the identity has an empty secret, the caller passes
`client_secret` in the options, and the assembled parameter set contains `client_secret`. -/
theorem buildData_secret_counterexample :
    certIdentity.ClientSecret = "" ∧
    Values.find (buildData certIdentity { Params := [("client_secret", "x")] })
      clientSecretParameter = some ["x"] ∧
    Values.Encode (buildData certIdentity { Params := [("client_secret", "x")] }) =
      "client_id=my-client&client_secret=x&grant_type=client_credentials" := by
  refine ⟨rfl, ?_, ?_⟩
  · decide
  · decide

/-- C3 (amended): the assembled parameter set contains `client_secret` exactly when the
identity has a non-empty client secret or the request options name `client_secret`. -/
theorem buildData_secret_iff (identity : Identity) (options : RequestOptions) :
    (Values.find (buildData identity options) clientSecretParameter).isSome = true ↔
      (identity.ClientSecret ≠ "" ∨ clientSecretParameter ∈ options.Params.map Prod.fst) := by
  unfold buildData
  rw [find_Set_other _ _ _ clientSecretParameter (by decide), find_foldl_isSome]
  by_cases h : identity.ClientSecret = ""
  · simp [h, Values.Set, Values.find, clientIDParameter, clientSecretParameter]
  · simp [h, find_Set_same]

/-! ## Endpoint resolution -/

/-- The function `getURL` fails whenever the parser finds no host. -/
theorem getURL_no_host (sl : Stdlib) (t : TokenFlows) (s : String)
    (h : ∀ u, sl.urlParse s = .ok u → u.Host = "") : ∃ err, getURL sl t s = .error err := by
  unfold getURL
  cases hp : sl.urlParse s with
  | error perr =>
    simp only []
    split_ifs <;> exact ⟨_, rfl⟩
  | ok u =>
    have hu := h u hp
    simp only [hu, ne_eq, not_true_eq_false, if_false]
    split_ifs <;> exact ⟨_, rfl⟩

/-- C4: for every tenant override that parses as a URL with a non-empty host, `getURL`
succeeds and returns `https://` followed by that host and `/oauth2/token`; no other
component of the parsed URL enters the result. -/
theorem getURL_host (sl : Stdlib) (t : TokenFlows) (s : String) (u : URL)
    (hparse : sl.urlParse s = .ok u) (hhost : u.Host ≠ "") :
    getURL sl t s = .ok ("https://" ++ u.Host ++ "/oauth2/token") := by
  unfold getURL
  simp [hparse, hhost, tokenEndpoint]

/-- Witness of C4: an `http` override with a path, a query and a fragment resolves to the
`https` token endpoint of its host. -/
theorem getURL_host_witness :
    getURL (stubStdlib 200 "") secretFlows "http://tenant.example.com/some/path?x=1#frag" =
      .ok "https://tenant.example.com/oauth2/token" :=
  getURL_host (stubStdlib 200 "") secretFlows "http://tenant.example.com/some/path?x=1#frag"
    { Scheme := "http", Opaque := "", User := none, Host := "tenant.example.com",
      Path := "/some/path", ForceQuery := false, RawQuery := "x=1", Fragment := "frag" }
    rfl (by decide)

/-- Counterexample to C5 as stated: the override `//example.com` is schemeless (it parses
with an empty scheme), yet the call sends one request, to the host named in the override,
and returns the token of the answer without an error. -/
theorem ClientCredentials_schemeless_counterexample :
    (goParse "//example.com").map (fun u => u.Scheme) = .ok "" ∧
    (ClientCredentials (stubStdlib 200 "\x7b\"access_token\":\"abc123\"\x7d") secretFlows
        background "//example.com" { Params := [] }).map
      (fun r => (r.token, r.err, r.sent.map (fun q => goURLString q.URL))) =
      some ("abc123", none, ["https://example.com/oauth2/token"]) := by
  refine ⟨rfl, ?_⟩
  decide

/-- C5 (amended): for every tenant override that fails to parse or whose parsed URL has
an empty host, `ClientCredentials` returns an empty token and an error, the error of
`getURL`, and hands no request to the HTTP client. -/
theorem ClientCredentials_unresolvable (sl : Stdlib) (t : TokenFlows) (ctx : Context)
    (s : String) (options : RequestOptions) (h : ∀ u, sl.urlParse s = .ok u → u.Host = "") :
    ∃ err, getURL sl t s = .error err ∧
      ClientCredentials sl t ctx s options = some { token := "", err := some err, sent := [] } := by
  obtain ⟨err, herr⟩ := getURL_no_host sl t s h
  exact ⟨err, herr, by simp [ClientCredentials, herr]⟩

/-- Witness of C5 (amended): the schemeless override `example.com` parses as a path, without
a host. -/
theorem ClientCredentials_unresolvable_witness :
    ∃ err, getURL (stubStdlib 200 "") secretFlows "example.com" = .error err ∧
      ClientCredentials (stubStdlib 200 "") secretFlows background "example.com"
        { Params := [] } = some { token := "", err := some err, sent := [] } :=
  ClientCredentials_unresolvable (stubStdlib 200 "") secretFlows background "example.com"
    { Params := [] } (by
      intro u hu
      have hp : (stubStdlib 200 "").urlParse "example.com" =
          .ok { URL.zero with Path := "example.com" } := rfl
      rw [hp] at hu
      cases hu
      rfl)

/-- Counterexample to C6 as stated: parsing the override `:foo` returns an error, yet the
text of the error of `getURL` is the not-a-URL message, not the parse-failure message. -/
theorem getURL_message_counterexample :
    goParse ":foo" = .error "parse \":foo\": missing protocol scheme" ∧
    getURL (stubStdlib 200 "") secretFlows ":foo" = .error (.errorString
      "customer tenant url ':foo' is not a valid url: Trying to parse a hostname without a scheme is invalid") :=
  ⟨rfl, rfl⟩

/-- C6 (amended): whenever `getURL` fails, the text of its error contains the override
verbatim; the text is the not-a-URL message whenever the override does not start with
`http`, and it is the parse-failure message followed by the error of the parser whenever
the override starts with `http` and parsing returned an error. -/
theorem getURL_error_text (sl : Stdlib) (t : TokenFlows) (s : String) (e : GoError)
    (h : getURL sl t s = .error e) :
    (∃ pre post, e = .errorString (pre ++ s ++ post)) ∧
    (hasPrefix s "http" = false → e = .errorString ("customer tenant url '" ++ s ++
      "' is not a valid url: Trying to parse a hostname without a scheme is invalid")) ∧
    (∀ perr, hasPrefix s "http" = true → sl.urlParse s = .error perr →
      e = .errorString ("customer tenant url '" ++ s ++ "' can't be parsed: " ++ perr)) := by
  unfold getURL at h
  cases hp : sl.urlParse s with
  | error perr =>
    rw [hp] at h
    by_cases hpre : hasPrefix s "http" = true
    · simp only [hpre, Bool.not_true, Bool.false_eq_true, if_false, formatParseErr,
        Except.error.injEq] at h
      subst h
      refine ⟨⟨"customer tenant url '", "' can't be parsed: " ++ perr, ?_⟩, ?_, ?_⟩
      · simp [String.append_assoc]
      · intro hf
        rw [hf] at hpre
        exact absurd hpre (by decide)
      · intro perr2 _ h2
        cases h2
        rfl
    · have hpre2 : hasPrefix s "http" = false := by simpa using hpre
      simp only [hpre2, Bool.not_false, if_true, Except.error.injEq] at h
      subst h
      refine ⟨⟨_, _, rfl⟩, fun _ => rfl, ?_⟩
      intro perr2 hf
      rw [hf] at hpre2
      exact absurd hpre2 (by decide)
  | ok u =>
    rw [hp] at h
    by_cases hhost : u.Host = ""
    · by_cases hpre : hasPrefix s "http" = true
      · simp only [hhost, ne_eq, not_true_eq_false, if_false, hpre, Bool.not_true,
          Bool.false_eq_true, formatParseErr, Except.error.injEq] at h
        subst h
        refine ⟨⟨"customer tenant url '", "' can't be parsed: " ++ "%!w(<nil>)", ?_⟩, ?_, ?_⟩
        · simp [String.append_assoc]
        · intro hf
          rw [hf] at hpre
          exact absurd hpre (by decide)
        · intro perr2 _ h2
          cases h2
      · have hpre2 : hasPrefix s "http" = false := by simpa using hpre
        simp only [hhost, ne_eq, not_true_eq_false, if_false, hpre2, Bool.not_false, if_true,
          Except.error.injEq] at h
        subst h
        refine ⟨⟨_, _, rfl⟩, fun _ => rfl, ?_⟩
        intro perr2 hf
        rw [hf] at hpre2
        exact absurd hpre2 (by decide)
    · simp [hhost] at h

/-- Witness of C6 (amended): the override `http://a b` starts with `http` and does not
parse; the error of `getURL` wraps the error of the parser. -/
theorem getURL_error_text_witness :
    (∃ pre post, GoError.errorString ("customer tenant url 'http://a b' can't be parsed: " ++
        "parse \"http://a b\": invalid character \" \" in host name") =
      .errorString (pre ++ "http://a b" ++ post)) ∧
    (hasPrefix "http://a b" "http" = false →
      GoError.errorString ("customer tenant url 'http://a b' can't be parsed: " ++
        "parse \"http://a b\": invalid character \" \" in host name") =
      .errorString ("customer tenant url '" ++ "http://a b" ++
        "' is not a valid url: Trying to parse a hostname without a scheme is invalid")) ∧
    (∀ perr, hasPrefix "http://a b" "http" = true →
      (stubStdlib 200 "").urlParse "http://a b" = .error perr →
      GoError.errorString ("customer tenant url 'http://a b' can't be parsed: " ++
        "parse \"http://a b\": invalid character \" \" in host name") =
      .errorString ("customer tenant url '" ++ "http://a b" ++ "' can't be parsed: " ++ perr)) :=
  getURL_error_text (stubStdlib 200 "") secretFlows "http://a b" _ rfl

/-! ## Transmission and validation -/

/-- The text of the missing-token error differs from every response-parsing error. -/
theorem no_token_text_ne (x : String) :
    "error parsing requested client credentials token: no 'access_token' property provided" ≠
      "error parsing response from " ++ x := by
  intro h
  have h1 := congrArg (fun z => z.data.take 17) h
  simp only [String.data_append] at h1
  rw [List.take_append_of_le_length (by decide)] at h1
  revert h1
  decide

/-- C7: whenever `ClientCredentials` returns without an error, the returned token is
non-empty and is the `access_token` decoded from the body of an answer with status 200 to
the one request sent; conversely, when the override resolves, the request is built, and
the HTTP client answers it with status 200 and a body whose decoded `access_token` is a
non-empty string, the call returns that string and no error. -/
theorem ClientCredentials_token (sl : Stdlib) (t : TokenFlows) (ctx : Context) (s : String)
    (options : RequestOptions) :
    (∀ cr, ClientCredentials sl t ctx s options = some cr → cr.err = none →
      cr.token ≠ "" ∧ ∃ client r res v, t.options.HTTPClient = some client ∧ cr.sent = [r] ∧
        sl.clientDo client r = .ok res ∧ res.StatusCode = 200 ∧
        sl.jsonDecode res.Body { Token := "" } = .ok v ∧ cr.token = v.Token) ∧
    (∀ target r0 client body tok, getURL sl t s = .ok target →
      sl.newRequest ctx "POST" target (Values.Encode (buildData t.identity options)) = .ok r0 →
      t.options.HTTPClient = some client →
      sl.clientDo client (setContentType r0) = .ok { StatusCode := 200, Body := body } →
      sl.jsonDecode body { Token := "" } = .ok { Token := tok } → tok ≠ "" →
      ClientCredentials sl t ctx s options =
        some { token := tok, err := none, sent := [setContentType r0] }) := by
  constructor
  · intro cr hcr herr
    unfold ClientCredentials at hcr
    cases hu : getURL sl t s with
    | error e =>
      rw [hu] at hcr
      simp only [Option.some.injEq] at hcr
      subst hcr
      simp at herr
    | ok target =>
      rw [hu] at hcr
      simp only [] at hcr
      cases hn : sl.newRequest ctx "POST" target (Values.Encode (buildData t.identity options)) with
      | error e =>
        rw [hn] at hcr
        simp only [Option.some.injEq] at hcr
        subst hcr
        simp at herr
      | ok r0 =>
        rw [hn] at hcr
        simp only [] at hcr
        unfold performRequest at hcr
        cases hc : t.options.HTTPClient with
        | none =>
          rw [hc] at hcr
          simp at hcr
        | some client =>
          rw [hc] at hcr
          simp only [] at hcr
          cases hd : sl.clientDo client (setContentType r0) with
          | error e =>
            rw [hd] at hcr
            simp only [Option.some.injEq] at hcr
            subst hcr
            simp at herr
          | ok res =>
            rw [hd] at hcr
            simp only [] at hcr
            by_cases hs : res.StatusCode = 200
            · simp only [hs, ne_eq, not_true_eq_false, if_false] at hcr
              cases hj : sl.jsonDecode res.Body { Token := "" } with
              | error e =>
                rw [hj] at hcr
                simp only [Option.some.injEq] at hcr
                subst hcr
                simp at herr
              | ok v =>
                rw [hj] at hcr
                simp only [] at hcr
                by_cases hv : v.Token = ""
                · simp only [hv, if_true, Option.some.injEq] at hcr
                  subst hcr
                  simp at herr
                · simp only [hv, if_false, Option.some.injEq] at hcr
                  subst hcr
                  exact ⟨hv, client, _, res, v, rfl, rfl, hd, hs, hj, rfl⟩
            · simp only [hs, ne_eq, not_false_eq_true, if_true, Option.some.injEq] at hcr
              subst hcr
              simp at herr
  · intro target r0 client body tok hu hn hc hd hj htok
    simp [ClientCredentials, performRequest, hu, hn, hc, hd, hj, htok]

/-- Witness of C7: a stub server answers 200 with the token `abc123`; the call returns
`abc123` and no error, and sends one request. -/
theorem ClientCredentials_token_witness :
    ClientCredentials (stubStdlib 200 "\x7b\"access_token\":\"abc123\"\x7d") secretFlows
        background "https://tenant.example.com" { Params := [] } =
      some { token := "abc123", err := none, sent :=
        [{ ctx := background, Method := "POST",
           URL := { Scheme := "https", Opaque := "", User := none, Host := "tenant.example.com",
                    Path := "/oauth2/token", ForceQuery := false, RawQuery := "",
                    Fragment := "" },
           Header := [("Content-Type", ["application/x-www-form-urlencoded"])],
           Body := "client_id=my-client&client_secret=s3cret&grant_type=client_credentials" }] } :=
  (ClientCredentials_token (stubStdlib 200 "\x7b\"access_token\":\"abc123\"\x7d") secretFlows
      background "https://tenant.example.com" { Params := [] }).2
    "https://tenant.example.com/oauth2/token"
    { ctx := background, Method := "POST",
      URL := { Scheme := "https", Opaque := "", User := none, Host := "tenant.example.com",
               Path := "/oauth2/token", ForceQuery := false, RawQuery := "", Fragment := "" },
      Header := [],
      Body := "client_id=my-client&client_secret=s3cret&grant_type=client_credentials" }
    (DefaultHTTPClient none) "\x7b\"access_token\":\"abc123\"\x7d" "abc123"
    rfl rfl rfl rfl rfl (by decide)

/-- C8: when the override resolves, the request is built and the HTTP client answers it
with status 200, a body that decodes with a missing or empty `access_token` makes the call
return an empty token and the error `error parsing requested client credentials token: no
'access_token' property provided`; a body that fails to decode makes it return the error
`error parsing response from <url>: <cause>`; the two texts differ. -/
theorem ClientCredentials_no_token (sl : Stdlib) (t : TokenFlows) (ctx : Context) (s : String)
    (options : RequestOptions) (target : String) (r0 : Request) (client : Client)
    (body : String) (hu : getURL sl t s = .ok target)
    (hn : sl.newRequest ctx "POST" target (Values.Encode (buildData t.identity options)) =
      .ok r0)
    (hc : t.options.HTTPClient = some client)
    (hd : sl.clientDo client (setContentType r0) = .ok { StatusCode := 200, Body := body }) :
    (sl.jsonDecode body { Token := "" } = .ok { Token := "" } →
      ClientCredentials sl t ctx s options = some
        { token := ""
          err := some (.errorString
            "error parsing requested client credentials token: no 'access_token' property provided")
          sent := [setContentType r0] }) ∧
    (∀ derr, sl.jsonDecode body { Token := "" } = .error derr →
      ClientCredentials sl t ctx s options = some
        { token := ""
          err := some (.errorString
            ("error parsing response from " ++ sl.urlString (setContentType r0).URL ++ ": " ++ derr))
          sent := [setContentType r0] }) ∧
    (∀ derr, GoError.errorString
        "error parsing requested client credentials token: no 'access_token' property provided" ≠
      .errorString
        ("error parsing response from " ++ sl.urlString (setContentType r0).URL ++ ": " ++ derr)) := by
  refine ⟨?_, ?_, ?_⟩
  · intro hj
    simp [ClientCredentials, performRequest, hu, hn, hc, hd, hj]
  · intro derr hj
    simp [ClientCredentials, performRequest, hu, hn, hc, hd, hj]
  · intro derr h
    injection h with h1
    rw [String.append_assoc, String.append_assoc] at h1
    exact no_token_text_ne _ h1

/-- Witness of C8: a stub server answers 200 with the empty object. -/
theorem ClientCredentials_no_token_witness :
    ClientCredentials (stubStdlib 200 "\x7b\x7d") secretFlows background
        "https://tenant.example.com" { Params := [] } =
      some
        { token := ""
          err := some (.errorString
            "error parsing requested client credentials token: no 'access_token' property provided")
          sent := [setContentType tenantRequest] } :=
  (ClientCredentials_no_token (stubStdlib 200 "\x7b\x7d") secretFlows background
      "https://tenant.example.com" { Params := [] } "https://tenant.example.com/oauth2/token"
      tenantRequest (DefaultHTTPClient none) "\x7b\x7d" rfl rfl rfl rfl).1 rfl

/-- C9: when the HTTP client answers a request with a status code other than 200,
`performRequest` returns a `RequestFailedError` holding that status code, the URL of the
request and the whole body, whatever the body is; its text is `request to '<url>' failed
with status code '<code>' and payload: '<body>'`; and `ClientCredentials` returns that error
with an empty token. -/
theorem performRequest_status (sl : Stdlib) (t : TokenFlows) (client : Client) (r : Request)
    (res : Response) (v : tokenResponse) (hc : t.options.HTTPClient = some client)
    (hd : sl.clientDo client r = .ok res) (hs : res.StatusCode ≠ 200) :
    performRequest sl t r v = some
        { err := some (.requestFailed
            { StatusCode := res.StatusCode, url := r.URL, errTxt := res.Body })
          v := v
          sent := [r] } ∧
    GoError.Error sl (.requestFailed
        { StatusCode := res.StatusCode, url := r.URL, errTxt := res.Body }) =
      "request to '" ++ sl.urlString r.URL ++ "' failed with status code '" ++
        toString res.StatusCode ++ "' and payload: '" ++ res.Body ++ "'" ∧
    (∀ ctx s options target r0, getURL sl t s = .ok target →
      sl.newRequest ctx "POST" target (Values.Encode (buildData t.identity options)) = .ok r0 →
      r = setContentType r0 →
      ClientCredentials sl t ctx s options = some
        { token := ""
          err := some (.requestFailed
            { StatusCode := res.StatusCode, url := r.URL, errTxt := res.Body })
          sent := [r] }) := by
  have hp : performRequest sl t r v = some
        { err := some (.requestFailed
            { StatusCode := res.StatusCode, url := r.URL, errTxt := res.Body })
          v := v
          sent := [r] } := by
    simp [performRequest, hc, hd, hs]
  refine ⟨hp, rfl, ?_⟩
  intro ctx s options target r0 hu hn hr
  subst hr
  simp [ClientCredentials, performRequest, hu, hn, hc, hd, hs]

/-- Witness of C9: a stub server answers 403 with the body `denied`. -/
theorem performRequest_status_witness :
    ClientCredentials (stubStdlib 403 "denied") secretFlows background
        "https://tenant.example.com" { Params := [] } =
      some
        { token := ""
          err := some (.requestFailed
            { StatusCode := 403, url := tenantRequest.URL, errTxt := "denied" })
          sent := [setContentType tenantRequest] } ∧
    GoError.Error (stubStdlib 403 "denied") (.requestFailed
        { StatusCode := 403, url := tenantRequest.URL, errTxt := "denied" }) =
      "request to 'https://tenant.example.com/oauth2/token' failed with status code '403' and payload: 'denied'" :=
  ⟨(performRequest_status (stubStdlib 403 "denied") secretFlows (DefaultHTTPClient none)
      (setContentType tenantRequest) { StatusCode := 403, Body := "denied" } { Token := "" }
      rfl rfl (by decide)).2.2 background "https://tenant.example.com" { Params := [] }
      "https://tenant.example.com/oauth2/token" tenantRequest rfl rfl rfl,
   by decide⟩

/-! ## The endpoint and the identity -/

/-- The function `DefaultTLSConfig` does not read the base URL of the identity. -/
theorem DefaultTLSConfig_URL (sl : Stdlib) (identity : Identity) (url2 : String) :
    DefaultTLSConfig sl { identity with URL := url2 } = DefaultTLSConfig sl identity := rfl

/-- The method `ClientCredentials` reads of its receiver the client id, the client secret
and the HTTP client only. -/
theorem ClientCredentials_congr (sl : Stdlib) (t1 t2 : TokenFlows) (ctx : Context) (s : String)
    (ro : RequestOptions) (hid : t1.identity.ClientID = t2.identity.ClientID)
    (hsec : t1.identity.ClientSecret = t2.identity.ClientSecret)
    (hopt : t1.options = t2.options) :
    ClientCredentials sl t1 ctx s ro = ClientCredentials sl t2 ctx s ro := by
  simp only [ClientCredentials, buildData, getURL, performRequest, hid, hsec, hopt]

/-- Every request that `ClientCredentials` hands to the HTTP client was built for the
result of `getURL`. -/
theorem ClientCredentials_sent (sl : Stdlib) (t : TokenFlows) (ctx : Context) (s : String)
    (ro : RequestOptions) (cr : CallResult) (hcr : ClientCredentials sl t ctx s ro = some cr)
    (r : Request) (hr : r ∈ cr.sent) :
    ∃ target r0, getURL sl t s = .ok target ∧
      sl.newRequest ctx "POST" target (Values.Encode (buildData t.identity ro)) = .ok r0 ∧
      r = setContentType r0 := by
  unfold ClientCredentials at hcr
  cases hu : getURL sl t s with
  | error e =>
    rw [hu] at hcr
    simp only [Option.some.injEq] at hcr
    subst hcr
    simp at hr
  | ok target =>
    rw [hu] at hcr
    simp only [] at hcr
    cases hn : sl.newRequest ctx "POST" target (Values.Encode (buildData t.identity ro)) with
    | error e =>
      rw [hn] at hcr
      simp only [Option.some.injEq] at hcr
      subst hcr
      simp at hr
    | ok r0 =>
      rw [hn] at hcr
      simp only [] at hcr
      refine ⟨target, r0, rfl, hn, ?_⟩
      cases hp : performRequest sl t (setContentType r0) { Token := "" } with
      | none =>
        rw [hp] at hcr
        simp at hcr
      | some res =>
        have hsent : res.sent = [setContentType r0] := by
          unfold performRequest at hp
          cases hc : t.options.HTTPClient with
          | none =>
            rw [hc] at hp
            simp at hp
          | some client =>
            rw [hc] at hp
            simp only [] at hp
            cases hd : sl.clientDo client (setContentType r0) with
            | error e =>
              rw [hd] at hp
              simp only [Option.some.injEq] at hp
              subst hp
              rfl
            | ok resp =>
              rw [hd] at hp
              simp only [] at hp
              split at hp
              · simp only [Option.some.injEq] at hp
                subst hp
                rfl
              · split at hp
                · simp only [Option.some.injEq] at hp
                  subst hp
                  rfl
                · simp only [Option.some.injEq] at hp
                  subst hp
                  rfl
        rw [hp] at hcr
        simp only [] at hcr
        have hcs : cr.sent = res.sent := by
          split at hcr
          · simp only [Option.some.injEq] at hcr
            subst hcr
            rfl
          · split at hcr
            · simp only [Option.some.injEq] at hcr
              subst hcr
              rfl
            · simp only [Option.some.injEq] at hcr
              subst hcr
              rfl
        rw [hcs, hsent] at hr
        simpa using hr

/-- C10: for two token flows that `NewTokenFlows` builds from identities differing only in
the base URL, the precomputed `tokenURI` is the base URL followed by `/oauth2/token`, yet
`getURL` and `ClientCredentials` give the same result for every tenant override; changing
`tokenURI` changes no result; every request sent was built for the result of `getURL`;
and with an empty tenant override (which parses without a host) the call fails with the
not-a-URL error and sends nothing. -/
theorem endpoint_from_override_only (sl : Stdlib) (identity : Identity) (url2 : String)
    (options : Options) (t1 t2 : TokenFlows)
    (h1 : NewTokenFlows sl identity options = .ok t1)
    (h2 : NewTokenFlows sl { identity with URL := url2 } options = .ok t2) :
    t1.tokenURI = identity.URL ++ "/oauth2/token" ∧
    t2.tokenURI = url2 ++ "/oauth2/token" ∧
    (∀ s, getURL sl t1 s = getURL sl t2 s) ∧
    (∀ ctx s ro, ClientCredentials sl t1 ctx s ro = ClientCredentials sl t2 ctx s ro) ∧
    (∀ ctx s ro uri, ClientCredentials sl { t1 with tokenURI := uri } ctx s ro =
      ClientCredentials sl t1 ctx s ro) ∧
    (∀ ctx s ro cr, ClientCredentials sl t1 ctx s ro = some cr → ∀ r ∈ cr.sent,
      ∃ target r0, getURL sl t1 s = .ok target ∧
        sl.newRequest ctx "POST" target (Values.Encode (buildData t1.identity ro)) = .ok r0 ∧
        r = setContentType r0) ∧
    (∀ ctx ro, (∀ u, sl.urlParse "" = .ok u → u.Host = "") →
      ClientCredentials sl t1 ctx "" ro =
        some
          { token := ""
            err := some (.errorString
              "customer tenant url '' is not a valid url: Trying to parse a hostname without a scheme is invalid")
            sent := [] }) := by
  have ht : t1.tokenURI = identity.URL ++ "/oauth2/token" ∧
      t2.tokenURI = url2 ++ "/oauth2/token" ∧
      t1.identity.ClientID = t2.identity.ClientID ∧
      t1.identity.ClientSecret = t2.identity.ClientSecret ∧ t1.options = t2.options := by
    unfold NewTokenFlows at h1 h2
    rw [DefaultTLSConfig_URL] at h2
    by_cases hcl : options.HTTPClient = none
    · simp only [hcl, if_true] at h1 h2
      cases hcfg : DefaultTLSConfig sl identity with
      | error e =>
        rw [hcfg] at h1
        simp at h1
      | ok cfg =>
        rw [hcfg] at h1 h2
        simp only [Except.ok.injEq] at h1 h2
        subst h1
        subst h2
        exact ⟨rfl, rfl, rfl, rfl, rfl⟩
    · simp only [hcl, if_false, Except.ok.injEq] at h1 h2
      subst h1
      subst h2
      exact ⟨rfl, rfl, rfl, rfl, rfl⟩
  obtain ⟨hu1, hu2, hid, hsec, hopt⟩ := ht
  refine ⟨hu1, hu2, fun s => rfl, ?_, ?_, ?_, ?_⟩
  · intro ctx s ro
    exact ClientCredentials_congr sl t1 t2 ctx s ro hid hsec hopt
  · intro ctx s ro uri
    exact ClientCredentials_congr sl _ t1 ctx s ro rfl rfl rfl
  · intro ctx s ro cr hcr r hr
    exact ClientCredentials_sent sl t1 ctx s ro cr hcr r hr
  · intro ctx ro hempty
    have hg : getURL sl t1 "" = .error (.errorString
        "customer tenant url '' is not a valid url: Trying to parse a hostname without a scheme is invalid") := by
      unfold getURL
      cases hp : sl.urlParse "" with
      | error perr => rfl
      | ok u =>
        have hu := hempty u hp
        simp only [hu, ne_eq, not_true_eq_false, if_false]
        rfl
    simp [ClientCredentials, hg]

/-- Witness of C10: the token flows for the base URLs `https://default.example.com` and
`https://other.example.com` both send the request to the tenant of the override, and both
fail on the empty override without sending anything. -/
theorem endpoint_from_override_only_witness :
    (ClientCredentials (stubStdlib 403 "denied") secretFlows background
        "https://tenant.example.com" { Params := [] } =
      ClientCredentials (stubStdlib 403 "denied") otherFlows background
        "https://tenant.example.com" { Params := [] }) ∧
    ClientCredentials (stubStdlib 403 "denied") secretFlows background "" { Params := [] } =
      some
        { token := ""
          err := some (.errorString
            "customer tenant url '' is not a valid url: Trying to parse a hostname without a scheme is invalid")
          sent := [] } :=
  ⟨(endpoint_from_override_only (stubStdlib 403 "denied") secretIdentity
      "https://other.example.com" { HTTPClient := none } secretFlows otherFlows rfl rfl).2.2.2.1
      background "https://tenant.example.com" { Params := [] },
   (endpoint_from_override_only (stubStdlib 403 "denied") secretIdentity
      "https://other.example.com" { HTTPClient := none } secretFlows otherFlows
      rfl rfl).2.2.2.2.2.2 background { Params := [] } (by
        intro u hu
        have hp : (stubStdlib 403 "denied").urlParse "" = .ok URL.zero := rfl
        rw [hp] at hu
        cases hu
        rfl)⟩

end TokenClient
